import Mathlib

/-!
Verification of the table-transformation pipeline (Quota Data Transformer).

The definitions below are a shallow embedding of the core pipeline found in
`src/App.tsx` (`cleanAzureDevOpsHeader`, `cleanRegion`, `handleTransform`)
and of the record type in `src/types.ts` (`TransformedRow`, `finalHeaders`).
Text is modelled as `List Char`; JavaScript strings, `String.prototype`
methods and regular expressions are translated operation by operation.
-/

/-- Text is modelled as a list of characters. -/
abbrev Str := List Char

/-- Conversion from a Lean string literal to the text model. -/
def S (s : String) : Str := s.toList

/-- The whitespace class used by JavaScript `trim`, `\s` in the regexes of
the source, and the `/\s+/ ` separator (restricted to the characters that
can actually occur in the pipeline's line-based input). -/
def isWS (c : Char) : Bool :=
  c = ' ' || c = '\t' || c = '\n' || c = '\r'

/-- JavaScript `[A-Z]`: ASCII uppercase letters. -/
def isUpperAZ (c : Char) : Bool :=
  'A' ≤ c && c ≤ 'Z'

/-- JavaScript `String.prototype.trim`: drop leading and trailing whitespace. -/
def trim (s : Str) : Str :=
  List.rdropWhile isWS (List.dropWhile isWS s)

/-- JavaScript `String.prototype.split` with a single-character string
separator: always returns at least one piece, empty pieces are kept. -/
def splitOnChar (sep : Char) : Str → List Str
  | [] => [[]]
  | c :: rest =>
    if c = sep then [] :: splitOnChar sep rest
    else
      match splitOnChar sep rest with
      | [] => [[c]]
      | piece :: pieces => (c :: piece) :: pieces

/-- Worker for `splitWS`; `inRun` records whether the scanner is inside a
whitespace run whose piece has already been emitted. -/
def splitWSAux (cur : Str) (inRun : Bool) : Str → List Str
  | [] => [cur.reverse]
  | c :: rest =>
    if isWS c then
      if inRun then splitWSAux cur true rest
      else cur.reverse :: splitWSAux [] true rest
    else splitWSAux (c :: cur) false rest

/-- JavaScript `String.prototype.split(/\s+/)`: a maximal run of one or more
whitespace characters acts as one separator; a leading or trailing run
produces an empty piece, exactly as in JavaScript. -/
def splitWS (s : Str) : List Str := splitWSAux [] false s

/-- Number of regex matches of a single-character pattern, as in
`(headerLine.match(/\t/g) || []).length`. -/
def matchCount (c : Char) (s : Str) : Nat :=
  (s.filter (fun x => x == c)).length

/-- The three possible delimiter choices of the pipeline. -/
inductive Delim where
  | tab
  | comma
  | ws
  deriving DecidableEq, Repr

/-- Delimiter auto-detection from the header line (`handleTransform`,
`src/App.tsx` lines 79-90). -/
def detectSep (headerLine : Str) : Delim :=
  let tabCount := matchCount '\t' headerLine
  let commaCount := matchCount ',' headerLine
  if tabCount > commaCount ∧ tabCount > 0 then .tab
  else if commaCount > 0 then .comma
  else .ws

/-- Split one line with the chosen delimiter (`line.split(separator)`). -/
def splitSep : Delim → Str → List Str
  | .tab, s => splitOnChar '\t' s
  | .comma, s => splitOnChar ',' s
  | .ws, s => splitWS s

/-- Per-field cleanup `h.trim().replace(/"/g, '')`: trim, then delete every
double-quote character. -/
def cleanField (f : Str) : Str :=
  (trim f).filter (fun c => c != '"')

/-- After an opening parenthesis and one uppercase letter have been consumed,
consume further uppercase letters up to a closing parenthesis; returns the
remainder of the text on success. -/
def capsClose : Str → Option Str
  | [] => none
  | c :: rest =>
    if c = ')' then some rest
    else if isUpperAZ c then capsClose rest
    else none

/-- Match `\([A-Z]+\)` at the head of the text, returning the remainder. -/
def matchAbbrev : Str → Option Str
  | [] => none
  | [_] => none
  | c0 :: c :: rest =>
    if c0 = '(' then (if isUpperAZ c then capsClose rest else none) else none

/-- Worker for `replaceAbbrev`. The scanner consumes at least one character
per step, so it is driven by a fuel counter that is an upper bound on the
remaining length; with enough fuel the fuel never runs out. -/
def replaceAbbrevFuel : Nat → Str → Str
  | 0, s => s
  | _ + 1, [] => []
  | fuel + 1, c :: rest =>
    if isWS c then
      match matchAbbrev rest with
      | some rest' => replaceAbbrevFuel fuel rest'
      | none => c :: replaceAbbrevFuel fuel rest
    else c :: replaceAbbrevFuel fuel rest

/-- JavaScript `region.replace(/\s\([A-Z]+\)/g, '')`: scan left to right,
deleting every non-overlapping match of "whitespace, opening parenthesis,
one or more uppercase letters, closing parenthesis"; scanning resumes after
the deleted match. -/
def replaceAbbrev (s : Str) : Str := replaceAbbrevFuel s.length s

/-- Whether the text still contains a match of `\s\([A-Z]+\)`. -/
def hasAbbrev : Str → Bool
  | [] => false
  | c :: rest => (isWS c && (matchAbbrev rest).isSome) || hasAbbrev rest

/-- `cleanRegion` from `src/App.tsx` lines 41-45: remove parenthesized
all-caps abbreviations (e.g. "Brazil South (SB)" → "Brazil South"), then
trim; the empty string is returned unchanged. -/
def cleanRegion (region : Str) : Str :=
  if region = [] then region else trim (replaceAbbrev region)

/-- Substring test, JavaScript `String.prototype.includes`. -/
def containsSub (needle : Str) : Str → Bool
  | [] => needle.isEmpty
  | c :: rest => needle.isPrefixOf (c :: rest) || containsSub needle rest

/-- The Azure DevOps banner test of `cleanAzureDevOpsHeader`
(`src/App.tsx` lines 22-25): the trimmed line must start with one fixed
literal and contain three more. -/
def isBannerLine (l : Str) : Bool :=
  let f := trim l
  (S "Project: Quota").isPrefixOf f &&
    containsSub (S "Server: https://dev.azure.com/capacityrequest") f &&
    containsSub (S "Query: [None]") f &&
    containsSub (S "List type: Flat") f

/-- `Array.prototype.join` with a one-character separator. -/
def joinWith (c : Char) : List Str → Str
  | [] => []
  | [l] => l
  | l :: ls => l ++ c :: joinWith c ls

/-- `cleanAzureDevOpsHeader` from `src/App.tsx` lines 15-33: drop line 0 if
it is the Azure DevOps banner, otherwise return the text unchanged. -/
def cleanAzureDevOpsHeader (text : Str) : Str :=
  if text = [] then text
  else
    match splitOnChar '\n' text with
    | [] => text
    | first :: rest => if isBannerLine first then joinWith '\n' rest else text

/-- The canonical output record (`TransformedRow` in `src/types.ts`); field
order follows the object literals in `handleTransform`. -/
structure Row where
  subscriptionID : Str
  requestType : Str
  vmType : Str
  region : Str
  zone : Str
  cores : Str
  status : Str
  originalID : Str
  deriving DecidableEq, Repr

/-- `finalHeaders` from `src/types.ts`. -/
def finalHeaders : List Str :=
  [S "Subscription ID", S "Request Type", S "VM Type", S "Region",
   S "Zone", S "Cores", S "Status"]

/-- `requiredOriginalHeaders` from `src/App.tsx` line 130. -/
def requiredOriginalHeaders : List Str :=
  [S "UTC Ticket", S "Deployment Constraints", S "Event ID", S "Reason",
   S "Subscription ID", S "SKU", S "Region"]

/-- Worker mirroring `headers.forEach((header, index) => { headerMap[header]
= index })`: sequential assignments into the map, later ones overwriting. -/
def buildHeaderMapFrom (i : Nat) : List Str → (Str → Option Nat) → (Str → Option Nat)
  | [], m => m
  | h :: t, m => buildHeaderMapFrom (i + 1) t (fun k => if k = h then some i else m k)

/-- The `headerMap` object of `handleTransform` (lines 93-96). -/
def buildHeaderMap (headers : List Str) : Str → Option Nat :=
  buildHeaderMapFrom 0 headers (fun _ => none)

/-- The `get` helper of both branches:
`values[headerMap[col]]?.trim() || ''` — a missing column or an
out-of-range index yields the empty string, a found value is trimmed. -/
def getField (hm : Str → Option Nat) (values : List Str) (col : Str) : Str :=
  match hm col with
  | none => []
  | some i => trim (values.getD i [])

/-- Status rewrite of the pre-normalized branch (lines 107-114). -/
def preStatusRewrite (s : Str) : Str :=
  if s = S "Verification Successful" then S "Approved"
  else if s = S "Abandoned" then S "Backlogged"
  else if s = S "-" then S "Pending Customer Response"
  else s

/-- Status rewrite of the raw branch (lines 170-178). -/
def rawStatusRewrite (s : Str) : Str :=
  if s = S "Fulfillment Actions Completed" then S "Fulfilled"
  else if s = S "Verification Successful" then S "Approved"
  else if s = S "Abandoned" then S "Backlogged"
  else if s = S "-" then S "Pending Customer Response"
  else s

/-- Request-type rewrite `switch` of the raw branch (lines 161-168). -/
def requestTypeRewrite (t : Str) : Str :=
  if t = S "AZ Enablement/Whitelisting" then S "Zonal Enablement"
  else if t = S "Region Enablement/Whitelisting" then S "Region Enablement"
  else if t = S "Whitelisting/Quota Increase" then S "Region Enablement & Quota Increase"
  else if t = S "Quota Increase" then S "Quota Increase"
  else if t = S "Region Limit Increase" then S "Region Limit Increase"
  else if t = S "RI Enablement/Whitelisting" then S "Reserved Instances"
  else t

/-- One data line of the pre-normalized branch (lines 103-126); `i` is the
row index used for the synthesized `Original ID`, `values` the split and
cleaned fields of the line. -/
def preRow (hm : Str → Option Nat) (i : Nat) (values : List Str) : Row :=
  let g := fun c => getField hm values c
  { subscriptionID := g (S "Subscription ID")
    requestType := g (S "Request Type")
    vmType := g (S "VM Type")
    region := cleanRegion (g (S "Region"))
    zone := g (S "Zone")
    cores := g (S "Cores")
    status := preStatusRewrite (g (S "Status"))
    originalID := S "pre-transformed-" ++ (Nat.repr i).toList }

/-- One data line of the raw branch (lines 140-189). -/
def rawRow (hm : Str → Option Nat) (values : List Str) : Row :=
  let g := fun c => getField hm values c
  let originalRequestType := g (S "UTC Ticket")
  let cores0 := g (S "Event ID")
  let zone0 := g (S "Deployment Constraints")
  { subscriptionID := g (S "Subscription ID")
    requestType := requestTypeRewrite originalRequestType
    vmType := g (S "SKU")
    region := cleanRegion (g (S "Region"))
    zone := if zone0 = [] then S "N/A" else zone0
    cores :=
      if originalRequestType = S "AZ Enablement/Whitelisting" then S "N/A"
      else if cores0 = S "-1" then []
      else cores0
    status := rawStatusRewrite (g (S "Reason"))
    originalID := if g (S "RDQuota") = [] then g (S "ID") else g (S "RDQuota") }

/-- The row filter of the raw branch (lines 190-194): keep a row unless its
zone is "N/A" and the four payload fields are all empty. -/
def keepRow (r : Row) : Bool :=
  !(r.zone == S "N/A" && r.subscriptionID.isEmpty && r.vmType.isEmpty &&
    r.region.isEmpty && r.requestType.isEmpty)

/-- Append a row to its category's bucket, creating the bucket on first
use (`groups[category].push(row)` with insertion-ordered keys). -/
def insertGroup : List (Str × List Row) → Str → Row → List (Str × List Row)
  | [], k, r => [(k, [r])]
  | (k', rs) :: t, k, r =>
    if k' = k then (k', rs ++ [r]) :: t else (k', rs) :: insertGroup t k r

/-- The grouping loop of `handleTransform` (lines 203-210). -/
def groupRows (rows : List Row) : List (Str × List Row) :=
  rows.foldl (fun g r => insertGroup g r.requestType r) []

/-- Successful transform output: the flat row sequence and the groups. -/
structure TResult where
  rows : List Row
  groups : List (Str × List Row)
  deriving DecidableEq, Repr

/-- Error message for empty input. -/
def emptyInputMsg : Str := S "Input data cannot be empty."

/-- Error message for fewer than two non-blank lines. -/
def needTwoLinesMsg : Str :=
  S "Input must contain a header row and at least one data row."

/-- Error message when every row was filtered out. -/
def noValidRowsMsg : Str :=
  S "No valid data rows could be processed. Please check your input."

/-- The `catch` wrapper of `handleTransform` (line 217) around a thrown
message. -/
def wrapErr (m : Str) : Str :=
  S "Failed to process data: " ++ m ++ S ". Please check the input format."

/-- The thrown message for one missing required column (line 136). -/
def missingColMsg (name : Str) : Str :=
  S "Missing required header column: \"" ++ name ++ S "\""

/-- The thrown message when both identifier aliases are absent (line 132). -/
def missingIdMsg : Str :=
  S "Missing required header column: \"ID\" or \"RDQuota\""

/-- The non-blank lines of the cleaned, trimmed input
(`cleanedInput.trim().split('\n').filter(line => line.trim() !== '')`). -/
def docLines (text : Str) : List Str :=
  (splitOnChar '\n' (trim (cleanAzureDevOpsHeader text))).filter
    (fun l => !(trim l).isEmpty)

/-- The split and cleaned header names
(`headerLine.split(separator).map(h => h.trim().replace(/"/g, ''))`). -/
def headersOf (sep : Delim) (headerLine : Str) : List Str :=
  (splitSep sep headerLine).map cleanField

/-- All rows of the pre-normalized branch: every data line is mapped, with
its index, through `preRow`; no filter is applied on this branch. -/
def preRows (sep : Delim) (headerLine : Str) (dataLines : List Str) : List Row :=
  dataLines.enum.map
    (fun p => preRow (buildHeaderMap (headersOf sep headerLine)) p.1
      ((splitSep sep p.2).map cleanField))

/-- All rows of the raw branch: every data line is mapped through `rawRow`
and the result is filtered with `keepRow`. -/
def rawRows (sep : Delim) (headerLine : Str) (dataLines : List Str) : List Row :=
  (dataLines.map
    (fun l => rawRow (buildHeaderMap (headersOf sep headerLine))
      ((splitSep sep l).map cleanField))).filter keepRow

/-- Everything `handleTransform` does after line splitting, with the single
detected separator passed in: header split, classification, the two
branches, required-column validation, filtering, grouping and the
empty-result check (lines 79-213). -/
def processDoc (sep : Delim) (headerLine : Str) (dataLines : List Str) :
    Except Str TResult :=
  let headers := headersOf sep headerLine
  let hm := buildHeaderMap headers
  if finalHeaders.all (fun h => headers.contains h) then
    let rows := preRows sep headerLine dataLines
    if rows.isEmpty then .error noValidRowsMsg
    else .ok ⟨rows, groupRows rows⟩
  else
    if hm (S "ID") = none ∧ hm (S "RDQuota") = none then
      .error (wrapErr missingIdMsg)
    else
      match requiredOriginalHeaders.find? (fun h => (hm h).isNone) with
      | some name => .error (wrapErr (missingColMsg name))
      | none =>
        let rows := rawRows sep headerLine dataLines
        if rows.isEmpty then .error noValidRowsMsg
        else .ok ⟨rows, groupRows rows⟩

/-- The whole `handleTransform` pipeline (`src/App.tsx` lines 56-221) as a
function from the raw input text to either an error message or the result. -/
def transform (text : Str) : Except Str TResult :=
  if trim (cleanAzureDevOpsHeader text) = [] then .error emptyInputMsg
  else
    match docLines text with
    | headerLine :: d :: ds => processDoc (detectSep headerLine) headerLine (d :: ds)
    | _ => .error needTwoLinesMsg

instance : DecidableEq (Except Str TResult) := fun a b =>
  match a, b with
  | .error x, .error y =>
    if h : x = y then isTrue (by rw [h]) else isFalse (by intro hh; cases hh; exact h rfl)
  | .ok x, .ok y =>
    if h : x = y then isTrue (by rw [h]) else isFalse (by intro hh; cases hh; exact h rfl)
  | .error _, .ok _ => isFalse (by intro hh; cases hh)
  | .ok _, .error _ => isFalse (by intro hh; cases hh)

/-! ## Specification-side definitions

These follow the wording of the specification claims and are compared with
the code-derived definitions above. -/

/-- Number of occurrences of a character in a text, written as a direct
recursive count (the claims speak of "the number of tab characters"). -/
def countChar (c : Char) : Str → Nat
  | [] => 0
  | x :: rest => (if x = c then 1 else 0) + countChar c rest

/-- The delimiter decision exactly as the specification words it: Tab if
the tab count exceeds the comma count and is positive, else Comma if the
comma count is positive, else a whitespace run. -/
def detectSepSpec (headerLine : Str) : Delim :=
  if countChar '\t' headerLine > countChar ',' headerLine ∧
      countChar '\t' headerLine > 0 then .tab
  else if countChar ',' headerLine > 0 then .comma
  else .ws

/-- The rightmost position of a name in the header list, as the claim about
duplicate columns words it. -/
def specLastIdx : List Str → Str → Option Nat
  | [], _ => none
  | h :: t, name =>
    match specLastIdx t name with
    | some j => some (j + 1)
    | none => if h = name then some 0 else none

/-- `i` is an in-range position of `name` in `headers` with no later
occurrence of `name`. -/
def RightmostAt (headers : List Str) (name : Str) (i : Nat) : Prop :=
  i < headers.length ∧ headers.getD i [] = name ∧
    ∀ j, i < j → j < headers.length → headers.getD j [] ≠ name

/-! ## Helper lemmas -/

theorem matchCount_eq_countChar (c : Char) (s : Str) :
    matchCount c s = countChar c s := by
  induction s with
  | nil => rfl
  | cons x rest ih =>
    simp only [matchCount, countChar, List.filter_cons] at *
    by_cases h : x = c
    · simp [h, ← ih]
      omega
    · simp [h, ← ih]

theorem replaceAbbrevFuel_of_not_has :
    ∀ (fuel : Nat) (s : Str), s.length ≤ fuel → hasAbbrev s = false →
      replaceAbbrevFuel fuel s = s := by
  intro fuel
  induction fuel with
  | zero =>
    intro s hl _
    have : s = [] := List.length_eq_zero.mp (Nat.le_zero.mp hl)
    subst this
    rfl
  | succ n ih =>
    intro s hl hh
    cases s with
    | nil => rfl
    | cons c rest =>
      simp only [hasAbbrev, Bool.or_eq_false_iff, Bool.and_eq_false_iff] at hh
      obtain ⟨h1, h2⟩ := hh
      have hlen : rest.length ≤ n := by
        simp only [List.length_cons] at hl
        omega
      simp only [replaceAbbrevFuel]
      by_cases hw : isWS c
      · have hnone : matchAbbrev rest = none := by
          cases hmm : matchAbbrev rest with
          | none => rfl
          | some r =>
            rcases h1 with h1 | h1
            · exact absurd h1 (by simp [hw])
            · rw [hmm] at h1
              simp at h1
        rw [if_pos hw, hnone, ih rest hlen h2]
      · rw [if_neg hw, ih rest hlen h2]

theorem dropWhile_trim_eq (s : Str) :
    List.dropWhile isWS (trim s) = trim s := by
  unfold trim
  obtain ⟨u, hu⟩ := List.rdropWhile_prefix isWS (List.dropWhile isWS s)
  cases h : List.rdropWhile isWS (List.dropWhile isWS s) with
  | nil => simp
  | cons c t' =>
    rw [h] at hu
    have hm : List.dropWhile isWS s = c :: (t' ++ u) := by
      rw [← hu]
      simp
    have hidem := List.dropWhile_idempotent isWS s
    rw [hm, List.dropWhile_cons] at hidem
    by_cases hc : isWS c
    · rw [if_pos hc] at hidem
      have hle := (List.dropWhile_sublist (p := isWS) (l := t' ++ u)).length_le
      rw [hidem] at hle
      simp at hle
    · simp [List.dropWhile_cons, hc]

theorem trim_trim (s : Str) : trim (trim s) = trim s := by
  calc trim (trim s)
      = List.rdropWhile isWS (List.dropWhile isWS (trim s)) := rfl
    _ = List.rdropWhile isWS (trim s) := by rw [dropWhile_trim_eq]
    _ = List.rdropWhile isWS (List.rdropWhile isWS (List.dropWhile isWS s)) := rfl
    _ = List.rdropWhile isWS (List.dropWhile isWS s) :=
        List.rdropWhile_idempotent isWS (List.dropWhile isWS s)
    _ = trim s := rfl

theorem specLastIdx_isSome :
    ∀ (t : List Str) (name : Str), (specLastIdx t name).isSome ↔ name ∈ t := by
  intro t name
  induction t with
  | nil => simp [specLastIdx]
  | cons h t' ih =>
    simp only [specLastIdx]
    cases hs : specLastIdx t' name with
    | some j =>
      have : name ∈ t' := ih.mp (by simp [hs])
      simp [this]
    | none =>
      have hnm : name ∉ t' := fun hmem => by
        have := ih.mpr hmem
        rw [hs] at this
        simp at this
      by_cases hn : h = name
      · simp [hn]
      · simp [hn, hnm]
        intro heq
        exact hn heq.symm

theorem buildHeaderMapFrom_eq :
    ∀ (t : List Str) (i : Nat) (m : Str → Option Nat) (name : Str),
      buildHeaderMapFrom i t m name =
        (match specLastIdx t name with
         | some j => some (i + j)
         | none => m name) := by
  intro t
  induction t with
  | nil => intro i m name; rfl
  | cons h t' ih =>
    intro i m name
    simp only [buildHeaderMapFrom, specLastIdx]
    rw [ih]
    cases hs : specLastIdx t' name with
    | some j =>
      simp only [hs]
      congr 1
      omega
    | none =>
      simp only [hs]
      by_cases hn : name = h
      · simp [hn]
      · rw [if_neg hn, if_neg (fun hh => hn hh.symm)]

theorem specLastIdx_rightmost :
    ∀ (t : List Str) (name : Str) (i : Nat),
      specLastIdx t name = some i → RightmostAt t name i := by
  intro t
  induction t with
  | nil => intro name i h; simp [specLastIdx] at h
  | cons h t' ih =>
    intro name i hsome
    simp only [specLastIdx] at hsome
    cases hs : specLastIdx t' name with
    | some j =>
      rw [hs] at hsome
      injection hsome with hi
      obtain ⟨hlt, hget, hafter⟩ := ih name j hs
      subst hi
      refine ⟨?_, ?_, ?_⟩
      · simp only [List.length_cons]
        omega
      · simpa using hget
      · intro k hk1 hk2
        cases k with
        | zero => omega
        | succ k' =>
          simp only [List.getD_cons_succ]
          simp only [List.length_cons] at hk2
          exact hafter k' (by omega) (by omega)
    | none =>
      rw [hs] at hsome
      by_cases hn : h = name
      · rw [if_pos hn] at hsome
        injection hsome with hi
        subst hi
        have hnotmem : name ∉ t' := by
          intro hmem
          have := (specLastIdx_isSome t' name).mpr hmem
          rw [hs] at this
          simp at this
        refine ⟨by simp, by simpa using hn, ?_⟩
        intro k hk1 hk2
        cases k with
        | zero => omega
        | succ k' =>
          simp only [List.getD_cons_succ]
          simp only [List.length_cons] at hk2
          intro hkname
          apply hnotmem
          rw [← hkname]
          have hk' : k' < t'.length := by omega
          rw [List.getD_eq_getElem _ _ hk']
          exact List.getElem_mem hk'
      · rw [if_neg hn] at hsome
        simp at hsome

/-! ## Claims -/

/-- Input of the raw-branch end-to-end example of claim C1. -/
def c1Input : Str :=
  S "ID\tUTC Ticket\tDeployment Constraints\tEvent ID\tReason\tSubscription ID\tSKU\tRegion\n123\tAZ Enablement/Whitelisting\t\t-1\tVerification Successful\tsub-1\tStandard_D2\tBrazil South (SB)"

/-- The row claim C1 expects to be produced. -/
def c1Row : Row :=
  { subscriptionID := S "sub-1", requestType := S "Zonal Enablement",
    vmType := S "Standard_D2", region := S "Brazil South", zone := S "N/A",
    cores := S "N/A", status := S "Approved", originalID := S "123" }

/-- Claim C1: for the tab-delimited raw-branch example input, the transform
succeeds and produces exactly one row with Request Type "Zonal Enablement",
Cores "N/A" (the AZ-Enablement override beats the "-1" rule), Zone "N/A",
Status "Approved", Region "Brazil South", Subscription ID "sub-1", VM Type
"Standard_D2" and Original ID "123". -/
theorem c1_end_to_end :
    transform c1Input = .ok ⟨[c1Row], [(S "Zonal Enablement", [c1Row])]⟩ := by
  decide

/-- Claim C2, counterexample: the two branches do NOT implement the same
status rewrite — they disagree on "Fulfillment Actions Completed", which
only the raw branch rewrites (to "Fulfilled"). -/
theorem c2_counterexample :
    preStatusRewrite (S "Fulfillment Actions Completed") =
        S "Fulfillment Actions Completed" ∧
    rawStatusRewrite (S "Fulfillment Actions Completed") = S "Fulfilled" ∧
    preStatusRewrite (S "Fulfillment Actions Completed") ≠
      rawStatusRewrite (S "Fulfillment Actions Completed") := by
  decide

/-- Claim C2, amended: the status rewrites of the two branches agree on
every status string other than "Fulfillment Actions Completed"; on that one
input the raw branch yields "Fulfilled" while the pre-normalized branch
passes it through unchanged. -/
theorem c2_amended :
    (∀ s : Str, s ≠ S "Fulfillment Actions Completed" →
      preStatusRewrite s = rawStatusRewrite s) ∧
    rawStatusRewrite (S "Fulfillment Actions Completed") = S "Fulfilled" ∧
    preStatusRewrite (S "Fulfillment Actions Completed") =
      S "Fulfillment Actions Completed" := by
  refine ⟨fun s h => ?_, by decide, by decide⟩
  simp only [preStatusRewrite, rawStatusRewrite, if_neg h]

/-- Witness for C2's amended theorem at the concrete status "Abandoned". -/
theorem c2_amended_witness :
    preStatusRewrite (S "Abandoned") = rawStatusRewrite (S "Abandoned") :=
  c2_amended.1 (S "Abandoned") (by decide)

/-- Claim C4, counterexample: region cleaning is not idempotent. Deleting
the inner abbreviation of "s (A (B))" creates a new match " (A)" that only
a second pass removes: one cleaning yields "s (A)", a second yields "s". -/
theorem c4_counterexample :
    cleanRegion (S "s (A (B))") = S "s (A)" ∧
    cleanRegion (cleanRegion (S "s (A (B))")) = S "s" ∧
    cleanRegion (cleanRegion (S "s (A (B))")) ≠ cleanRegion (S "s (A (B))") := by
  decide

/-- Claim C4, amended: region cleaning is idempotent on every input whose
cleaned form contains no further occurrence of the abbreviation pattern
"whitespace, parenthesized capitals" (which holds for all realistic region
strings such as "Brazil South (SB)"); full idempotence fails, by the
counterexample, when deleting one match creates a new one. -/
theorem c4_amended :
    ∀ r : Str, hasAbbrev (cleanRegion r) = false →
      cleanRegion (cleanRegion r) = cleanRegion r := by
  intro r h
  by_cases htn : cleanRegion r = []
  · rw [htn]
    rfl
  · have h1 : replaceAbbrev (cleanRegion r) = cleanRegion r :=
      replaceAbbrevFuel_of_not_has (cleanRegion r).length (cleanRegion r)
        le_rfl h
    have h2 : trim (cleanRegion r) = cleanRegion r := by
      by_cases hr : r = []
      · exact absurd (by rw [hr]; rfl) htn
      · have hcr : cleanRegion r = trim (replaceAbbrev r) := by
          simp [cleanRegion, hr]
        rw [hcr, trim_trim]
    have hout : cleanRegion (cleanRegion r) =
        if cleanRegion r = [] then cleanRegion r
        else trim (replaceAbbrev (cleanRegion r)) := rfl
    rw [hout, if_neg htn, h1, h2]

/-- Witness for C4's amended theorem at the spec's example region string. -/
theorem c4_amended_witness :
    cleanRegion (cleanRegion (S "Brazil South (SB)")) =
      cleanRegion (S "Brazil South (SB)") :=
  c4_amended (S "Brazil South (SB)") (by decide)

/-- Claim C5: the detected delimiter follows exactly the claimed decision
order (Tab if tabs exceed commas and are positive, else Comma if commas are
positive, else a whitespace run), and the single choice detected from the
header line is what the whole remaining pipeline — header split and every
data line — is run with. -/
theorem c5_delimiter_choice :
    (∀ headerLine : Str, detectSep headerLine = detectSepSpec headerLine) ∧
    (∀ (text headerLine d : Str) (ds : List Str),
      trim (cleanAzureDevOpsHeader text) ≠ [] →
      docLines text = headerLine :: d :: ds →
      transform text = processDoc (detectSep headerLine) headerLine (d :: ds)) := by
  constructor
  · intro headerLine
    simp [detectSep, detectSepSpec, matchCount_eq_countChar]
  · intro text headerLine d ds hne hdoc
    simp only [transform, if_neg hne, hdoc]

/-- Witness for C5 on a concrete comma-delimited two-line document. -/
theorem c5_witness :
    transform (S "a,b\nx,y") =
      processDoc (detectSep (S "a,b")) (S "a,b") [S "x,y"] :=
  c5_delimiter_choice.2 (S "a,b\nx,y") (S "a,b") (S "x,y") [] (by decide)
    (by decide)

/-- Claim C9: the header stripper drops line 0 exactly when that line,
trimmed, starts with the fixed banner prefix and contains the three other
fixed banner substrings (the `isBannerLine` test); otherwise the text is
returned completely unchanged, and no error path exists (the function is
total). -/
theorem c9_banner_strip :
    ∀ (text first : Str) (rest : List Str),
      splitOnChar '\n' text = first :: rest →
      (isBannerLine first = true →
        cleanAzureDevOpsHeader text = joinWith '\n' rest) ∧
      (isBannerLine first = false → cleanAzureDevOpsHeader text = text) := by
  intro text first rest h
  by_cases ht : text = []
  · subst ht
    have h0 : first = ([] : Str) ∧ rest = [] := by
      have : ([] : Str) :: [] = first :: rest := by
        rw [← h]
        rfl
      exact ⟨(List.cons.injEq _ _ _ _ ▸ this).1.symm,
             (List.cons.injEq _ _ _ _ ▸ this).2.symm⟩
    obtain ⟨h1, h2⟩ := h0
    subst h1
    subst h2
    exact ⟨fun hb => absurd hb (by decide), fun _ => rfl⟩
  · constructor <;> intro hb <;> simp [cleanAzureDevOpsHeader, ht, h, hb]

/-- Banner-headed input used as the witness for C9. -/
def c9BannerText : Str :=
  S "Project: Quota Server: https://dev.azure.com/capacityrequest Query: [None] List type: Flat\na,b"

/-- Witness for C9: the banner line of a concrete export is stripped. -/
theorem c9_witness :
    cleanAzureDevOpsHeader c9BannerText = joinWith '\n' [S "a,b"] :=
  (c9_banner_strip c9BannerText
    (S "Project: Quota Server: https://dev.azure.com/capacityrequest Query: [None] List type: Flat")
    [S "a,b"] (by decide)).1 (by decide)

/-- Claim C10: the header map sends every name to its last (rightmost)
position in the split header line — formally it agrees with `specLastIdx`,
it is defined exactly on the names present in the header (so duplicates
never cause an error in the required-column checks or the classification,
which only consult definedness/membership), and any position it returns is
an occurrence of the name with no later occurrence. -/
theorem c10_last_index_wins :
    ∀ (headers : List Str) (name : Str),
      buildHeaderMap headers name = specLastIdx headers name ∧
      ((buildHeaderMap headers name).isSome ↔ name ∈ headers) ∧
      (∀ i, buildHeaderMap headers name = some i → RightmostAt headers name i) := by
  intro headers name
  have h1 : buildHeaderMap headers name = specLastIdx headers name := by
    unfold buildHeaderMap
    rw [buildHeaderMapFrom_eq]
    cases hs : specLastIdx headers name <;> simp [hs]
  refine ⟨h1, ?_, ?_⟩
  · rw [h1]
    exact specLastIdx_isSome headers name
  · intro i hi
    rw [h1] at hi
    exact specLastIdx_rightmost headers name i hi

/-- Witness for C10 on a header with a duplicated column name: the map
returns the rightmost occurrence. -/
theorem c10_witness :
    RightmostAt [S "A", S "B", S "A"] (S "A") 2 :=
  (c10_last_index_wins [S "A", S "B", S "A"] (S "A")).2.2 2 (by decide)

theorem processDoc_rows_shape :
    ∀ (sep : Delim) (hd : Str) (dls : List Str) (r : TResult),
      processDoc sep hd dls = .ok r →
      r.rows = preRows sep hd dls ∨ r.rows = rawRows sep hd dls := by
  intro sep hd dls r h
  simp only [processDoc] at h
  split at h
  · split at h
    · exact absurd h (by simp)
    · left
      injection h with h2
      rw [← h2]
  · split at h
    · exact absurd h (by simp)
    · split at h
      · exact absurd h (by simp)
      · split at h
        · exact absurd h (by simp)
        · right
          injection h with h2
          rw [← h2]

/-- Claim C7: the row filter drops a transformed row exactly when its Zone
is "N/A" and Subscription ID, VM Type, Region and Request Type are all
empty; and it applies only to the raw branch — on a pre-normalized
classification the transform succeeds with one output row per data line
(the unfiltered `preRows`), so pre-normalized rows are never filtered. -/
theorem c7_filter :
    (∀ r : Row, keepRow r = false ↔
      (r.zone = S "N/A" ∧ r.subscriptionID = [] ∧ r.vmType = [] ∧
        r.region = [] ∧ r.requestType = [])) ∧
    (∀ (sep : Delim) (hd d : Str) (ds : List Str),
      finalHeaders.all (fun h => (headersOf sep hd).contains h) = true →
      processDoc sep hd (d :: ds) =
        .ok ⟨preRows sep hd (d :: ds), groupRows (preRows sep hd (d :: ds))⟩ ∧
      (preRows sep hd (d :: ds)).length = (d :: ds).length) := by
  constructor
  · intro r
    simp [keepRow, List.isEmpty_iff, and_assoc]
  · intro sep hd d ds hpre
    have hne : (preRows sep hd (d :: ds)).isEmpty = false := by
      simp [preRows]
    constructor
    · simp only [processDoc, hpre, if_true, hne]
      simp
    · simp [preRows]

/-- Witness for C7 on a concrete pre-normalized document: the transform
keeps its sole data row. -/
theorem c7_witness :
    processDoc .comma
        (S "Subscription ID,Request Type,VM Type,Region,Zone,Cores,Status")
        [S "a,Quota Increase,c,d,e,f,g"] =
      .ok ⟨preRows .comma
          (S "Subscription ID,Request Type,VM Type,Region,Zone,Cores,Status")
          [S "a,Quota Increase,c,d,e,f,g"],
        groupRows (preRows .comma
          (S "Subscription ID,Request Type,VM Type,Region,Zone,Cores,Status")
          [S "a,Quota Increase,c,d,e,f,g"])⟩ :=
  ((c7_filter.2 .comma
    (S "Subscription ID,Request Type,VM Type,Region,Zone,Cores,Status")
    (S "a,Quota Increase,c,d,e,f,g") [] (by decide))).1

/-- Claim C8: when the raw branch's processed row sequence is empty after
filtering (and this is the only way the processed sequence can be empty,
since the pre-normalized branch maps every data line to a row), the
transform reports the "no valid data rows" error instead of an empty
success result; no rows and no groups are produced. -/
theorem c8_empty_after_filter :
    ∀ (text hd d : Str) (ds : List Str),
      trim (cleanAzureDevOpsHeader text) ≠ [] →
      docLines text = hd :: d :: ds →
      finalHeaders.all (fun h => (headersOf (detectSep hd) hd).contains h) = false →
      ¬(buildHeaderMap (headersOf (detectSep hd) hd) (S "ID") = none ∧
        buildHeaderMap (headersOf (detectSep hd) hd) (S "RDQuota") = none) →
      requiredOriginalHeaders.find?
        (fun h => (buildHeaderMap (headersOf (detectSep hd) hd) h).isNone) = none →
      rawRows (detectSep hd) hd (d :: ds) = [] →
      transform text = .error noValidRowsMsg := by
  intro text hd d ds hne hdoc hcls hid hfind hraw
  simp only [transform, if_neg hne, hdoc]
  simp only [processDoc]
  rw [if_neg (by rw [hcls]; decide), if_neg hid, hfind]
  simp [hraw]

/-- Raw-branch input whose only data row is dropped by the filter; used as
the witness for C8. -/
def c8Input : Str :=
  S "ID\tUTC Ticket\tDeployment Constraints\tEvent ID\tReason\tSubscription ID\tSKU\tRegion\n5"

/-- Witness for C8: a document whose single row is filtered out yields the
"no valid data rows" error. -/
theorem c8_witness : transform c8Input = .error noValidRowsMsg :=
  c8_empty_after_filter c8Input
    (S "ID\tUTC Ticket\tDeployment Constraints\tEvent ID\tReason\tSubscription ID\tSKU\tRegion")
    (S "5") [] (by decide) (by decide) (by decide) (by decide) (by decide)
    (by decide)

/-- Claim C6, counterexample: an input classified raw whose header lacks
"SKU" need not fail with an error naming "SKU" — when an earlier-checked
required column is also missing, that one is named instead. The header
"ID,Region" lacks SKU, yet the error names "UTC Ticket" and does not
mention "SKU" at all. -/
theorem c6_counterexample :
    (headersOf (detectSep (S "ID,Region")) (S "ID,Region")).contains (S "SKU") =
        false ∧
    finalHeaders.all
        (fun h => (headersOf (detectSep (S "ID,Region")) (S "ID,Region")).contains h) =
      false ∧
    transform (S "ID,Region\nx,y") =
      .error (wrapErr (missingColMsg (S "UTC Ticket"))) ∧
    containsSub (S "SKU") (wrapErr (missingColMsg (S "UTC Ticket"))) = false := by
  decide

/-- Claim C6, amended: on a raw-classified input, if both identifier
aliases "ID" and "RDQuota" are absent the transform fails with the error
naming that pair; otherwise it fails naming the FIRST missing column in
the fixed check order UTC Ticket, Deployment Constraints, Event ID,
Reason, Subscription ID, SKU, Region (so an input lacking only "SKU"
among the checked columns fails naming "SKU", but when an earlier
required column is also missing, that column is named instead). In every
such case the result is an error: no rows and no groups are produced. -/
theorem c6_missing_column :
    ∀ (text hd d : Str) (ds : List Str),
      trim (cleanAzureDevOpsHeader text) ≠ [] →
      docLines text = hd :: d :: ds →
      finalHeaders.all (fun h => (headersOf (detectSep hd) hd).contains h) = false →
      ((buildHeaderMap (headersOf (detectSep hd) hd) (S "ID") = none ∧
          buildHeaderMap (headersOf (detectSep hd) hd) (S "RDQuota") = none →
        transform text = .error (wrapErr missingIdMsg)) ∧
       (∀ name : Str,
         ¬(buildHeaderMap (headersOf (detectSep hd) hd) (S "ID") = none ∧
           buildHeaderMap (headersOf (detectSep hd) hd) (S "RDQuota") = none) →
         requiredOriginalHeaders.find?
             (fun h => (buildHeaderMap (headersOf (detectSep hd) hd) h).isNone) =
           some name →
         transform text = .error (wrapErr (missingColMsg name)))) := by
  intro text hd d ds hne hdoc hcls
  constructor
  · intro hid
    simp only [transform, if_neg hne, hdoc]
    simp only [processDoc]
    rw [if_neg (by rw [hcls]; decide), if_pos hid]
  · intro name hid hfind
    simp only [transform, if_neg hne, hdoc]
    simp only [processDoc]
    rw [if_neg (by rw [hcls]; decide), if_neg hid, hfind]

/-- Raw-branch input lacking only the "SKU" column; witness input for C6. -/
def c6Input : Str :=
  S "ID\tUTC Ticket\tDeployment Constraints\tEvent ID\tReason\tSubscription ID\tRegion\n1\ta\tb\tc\td\te\tf"

/-- Witness for C6's amended theorem: when "SKU" is the only missing
required column, the error names "SKU". -/
theorem c6_witness :
    transform c6Input = .error (wrapErr (missingColMsg (S "SKU"))) :=
  (c6_missing_column c6Input
      (S "ID\tUTC Ticket\tDeployment Constraints\tEvent ID\tReason\tSubscription ID\tRegion")
      (S "1\ta\tb\tc\td\te\tf") [] (by decide) (by decide) (by decide)).2
    (S "SKU") (by decide) (by decide)

theorem requestTypeRewrite_nil : requestTypeRewrite [] = [] := by decide

theorem rawStatusRewrite_nil : rawStatusRewrite [] = [] := by decide

theorem preStatusRewrite_nil : preStatusRewrite [] = [] := by decide

theorem cleanRegion_nil : cleanRegion [] = [] := rfl

/-- Pre-normalized document whose Zone field is empty; counterexample
input for C3. -/
def c3Input : Str :=
  S "Subscription ID,Request Type,VM Type,Region,Zone,Cores,Status\nsub,Quota Increase,vm,East US,,4,Approved"

/-- The row the transform actually produces for `c3Input`. -/
def c3Row : Row :=
  { subscriptionID := S "sub", requestType := S "Quota Increase",
    vmType := S "vm", region := S "East US", zone := [],
    cores := S "4", status := S "Approved",
    originalID := S "pre-transformed-0" }

/-- Claim C3, counterexample: on the pre-normalized branch an empty Zone
source value is NOT replaced by "N/A" — the transform succeeds and the
produced row's Zone is the empty string. -/
theorem c3_counterexample :
    transform c3Input = .ok ⟨[c3Row], [(S "Quota Increase", [c3Row])]⟩ ∧
    c3Row.zone = [] ∧ c3Row.zone ≠ S "N/A" := by
  decide

/-- Claim C3, amended: in every successfully transformed document each
produced row comes from `rawRow` (raw branch) or `preRow` (pre-normalized
branch); in `rawRow` every field whose source value is absent or empty is
the empty string — except Zone, which becomes "N/A", and Cores, whose
AZ-Enablement override can apply — while in `preRow` every field with an
absent or empty source value is the empty string INCLUDING Zone (the
"N/A" default exists only on the raw branch; Original ID is synthesized
there, not read from a source column). -/
theorem c3_empty_defaults :
    (∀ (hm : Str → Option Nat) (values : List Str),
      (getField hm values (S "Subscription ID") = [] →
        (rawRow hm values).subscriptionID = []) ∧
      (getField hm values (S "SKU") = [] → (rawRow hm values).vmType = []) ∧
      (getField hm values (S "Region") = [] → (rawRow hm values).region = []) ∧
      (getField hm values (S "Deployment Constraints") = [] →
        (rawRow hm values).zone = S "N/A") ∧
      (getField hm values (S "Reason") = [] → (rawRow hm values).status = []) ∧
      (getField hm values (S "UTC Ticket") = [] →
        (rawRow hm values).requestType = []) ∧
      (getField hm values (S "UTC Ticket") ≠ S "AZ Enablement/Whitelisting" →
        getField hm values (S "Event ID") = [] → (rawRow hm values).cores = []) ∧
      (getField hm values (S "RDQuota") = [] → getField hm values (S "ID") = [] →
        (rawRow hm values).originalID = [])) ∧
    (∀ (hm : Str → Option Nat) (i : Nat) (values : List Str),
      (getField hm values (S "Subscription ID") = [] →
        (preRow hm i values).subscriptionID = []) ∧
      (getField hm values (S "Request Type") = [] →
        (preRow hm i values).requestType = []) ∧
      (getField hm values (S "VM Type") = [] → (preRow hm i values).vmType = []) ∧
      (getField hm values (S "Region") = [] → (preRow hm i values).region = []) ∧
      (getField hm values (S "Zone") = [] → (preRow hm i values).zone = []) ∧
      (getField hm values (S "Cores") = [] → (preRow hm i values).cores = []) ∧
      (getField hm values (S "Status") = [] → (preRow hm i values).status = [])) ∧
    (∀ (text : Str) (r : TResult), transform text = .ok r → ∀ row ∈ r.rows,
      (∃ hm values, row = rawRow hm values) ∨
      (∃ hm i values, row = preRow hm i values)) := by
  refine ⟨fun hm values => ?_, fun hm i values => ?_, ?_⟩
  · refine ⟨fun h => by simp [rawRow, h],
      fun h => by simp [rawRow, h],
      fun h => by simp [rawRow, h, cleanRegion_nil],
      fun h => by simp [rawRow, h],
      fun h => by simp [rawRow, h, rawStatusRewrite_nil],
      fun h => by simp [rawRow, h, requestTypeRewrite_nil],
      fun h1 h2 => by simp [rawRow, h1, h2],
      fun h1 h2 => by simp [rawRow, h1, h2]⟩
  · exact ⟨fun h => by simp [preRow, h],
      fun h => by simp [preRow, h],
      fun h => by simp [preRow, h],
      fun h => by simp [preRow, h, cleanRegion_nil],
      fun h => by simp [preRow, h],
      fun h => by simp [preRow, h],
      fun h => by simp [preRow, h, preStatusRewrite_nil]⟩
  · intro text r htr row hrow
    by_cases hne : trim (cleanAzureDevOpsHeader text) = []
    · simp only [transform, if_pos hne] at htr
      exact absurd htr (by simp)
    · cases hdoc : docLines text with
      | nil =>
        simp only [transform, if_neg hne, hdoc] at htr
        exact absurd htr (by simp)
      | cons hd tl =>
        cases tl with
        | nil =>
          simp only [transform, if_neg hne, hdoc] at htr
          exact absurd htr (by simp)
        | cons d ds =>
          simp only [transform, if_neg hne, hdoc] at htr
          rcases processDoc_rows_shape _ _ _ _ htr with hsh | hsh
          · right
            rw [hsh] at hrow
            simp only [preRows, List.mem_map] at hrow
            obtain ⟨p, _, hp⟩ := hrow
            exact ⟨_, p.1, _, hp.symm⟩
          · left
            rw [hsh] at hrow
            simp only [rawRows, List.mem_filter, List.mem_map] at hrow
            obtain ⟨⟨l, _, hl⟩, _⟩ := hrow
            exact ⟨_, _, hl.symm⟩

/-- Witness for C3's amended theorem: with the C1 header map and a data
line with no fields, the raw branch defaults Zone to "N/A". -/
theorem c3_empty_defaults_witness :
    (rawRow (buildHeaderMap (headersOf Delim.tab
      (S "ID\tUTC Ticket\tDeployment Constraints\tEvent ID\tReason\tSubscription ID\tSKU\tRegion")))
      []).zone = S "N/A" :=
  ((c3_empty_defaults.1 (buildHeaderMap (headersOf Delim.tab
      (S "ID\tUTC Ticket\tDeployment Constraints\tEvent ID\tReason\tSubscription ID\tSKU\tRegion")))
      []).2.2.2.1) (by decide)
